import Mathlib

/-!
Verification of the pizza-ordering backend (`src/database/queryManager.py`,
`src/database/models.py`, `src/database/views.py`) against its
natural-language specification.

The relational entities of `models.py` are embedded as Lean structures, a
database state is a record of entity lists, and each `QueryManager` method
becomes a pure function `DB → ... → Except QMError ...`.  Every public
endpoint runs a method inside a single `db_session` transaction
(`src/router/secured.py`), so an exception rolls back all partial writes;
the embedding mirrors this by returning `Except.error` without a new state:
an error result always leaves the database exactly as it was.

Python `float` money amounts are modelled as `ℚ`; `datetime` values are
modelled as integer timestamps in seconds (one day = 86400).
-/

namespace PizzaDB

/-- Python's `round(x, 2)` as used by `queryManager.py`: round to two decimal places. -/
def roundTo2 (q : ℚ) : ℚ :=
  ((⌊q * 100 + 1 / 2⌋ : ℤ) : ℚ) / 100

/-- Python's 30-day and 7-day `timedelta` spans, in seconds per day. -/
def days (n : Int) : Int := n * 86400

/-- Enum `IngredientType` of `models.py`. -/
inductive IngredientType
  | Vegan
  | Vegetarian
  | Normal
deriving DecidableEq

/-- Enum `ExtraType` of `models.py`. -/
inductive ExtraType
  | Drink
  | Dessert
deriving DecidableEq

/-- Enum `DeliveryStatus` of `models.py`. -/
inductive DeliveryStatus
  | Available
  | On_Delivery
  | Off_Duty
deriving DecidableEq

/-- Enum `OrderStatus` of `models.py`. -/
inductive OrderStatus
  | Pending
  | In_Progress
  | Delivered
  | Cancelled
deriving DecidableEq

/-- Entity `Ingredient` of `models.py`. -/
structure Ingredient where
  id : Nat
  name : String
  price : ℚ
  type : IngredientType
deriving DecidableEq

/-- Entity `Pizza` of `models.py`; the `ingredients` many-to-many set is
embedded directly as the list of ingredient rows.  `stock` is a Python
`int`, so it is an unbounded `Int` here (whether it can go negative is
exactly what claim C2 is about). -/
structure Pizza where
  id : Nat
  name : String
  ingredients : List Ingredient
  stock : Int
deriving DecidableEq

/-- Entity `Extra` of `models.py`. -/
structure Extra where
  id : Nat
  name : String
  price : ℚ
  type : ExtraType
deriving DecidableEq

/-- The single-table user hierarchy of `models.py` (`User`, `Customer`,
`Employee`, `DeliveryPerson`) as a kind tag carrying the subtype fields
each claim needs. -/
inductive UserKind
  | Base
  | Customer (loyalty_points : Nat) (birthday_order : Bool)
  | Employee
  | DeliveryPerson (status : DeliveryStatus)
deriving DecidableEq

/-- Entity `User` of `models.py` (fields used by the claims).
`postalCode` is `Required(str)` so it is a plain `String` (possibly empty);
`discount_code` is the optional link set by `create_multiple_pizza_order`. -/
structure User where
  id : Nat
  username : String
  postalCode : String
  discount_code : Option String
  kind : UserKind
deriving DecidableEq

/-- Test `isinstance(user, Customer)` of the Python source. -/
def User.isCustomer (u : User) : Bool :=
  match u.kind with
  | UserKind.Customer _ _ => true
  | _ => false

/-- Loyalty points of a customer (`0` for non-customers, unused there). -/
def User.loyaltyPoints (u : User) : Nat :=
  match u.kind with
  | UserKind.Customer lp _ => lp
  | _ => 0

/-- Test `isinstance(user, DeliveryPerson)` plus its `status` field. -/
def User.deliveryStatus (u : User) : Option DeliveryStatus :=
  match u.kind with
  | UserKind.DeliveryPerson st => some st
  | _ => none

/-- Entity `Order` of `models.py`.  Field `lines` embeds the `OrderPizzaRelation`
rows as `(pizza id, quantity)` pairs — one row per distinct pizza, since the
relation's primary key is `(order, pizza)` (`models.py` line 39).  `extras`
is a Pony `Set`, so it holds no duplicate ids. -/
structure Order where
  id : Nat
  userId : Nat
  lines : List (Nat × Int)
  extras : List Nat
  status : OrderStatus
  created_at : Int
  delivered_at : Option Int
  delivery_person : Option Nat
  postalCode : String
deriving DecidableEq

/-- Entity `DiscountCode` of `models.py`: `valid_from` is `Optional`,
everything else required; `used_by` stores the redeeming user's id. -/
structure DiscountCode where
  code : String
  percentage : ℚ
  valid_until : Int
  valid_from : Option Int
  used : Bool
  used_by : Option Nat
deriving DecidableEq

/-- Error taxonomy of the specification (§7); `QueryManager` raises
`ValueError` with a message, the router maps the message onto this
taxonomy.  `DuplicateKey` stands for Pony's `CacheIndexError`, raised when
an entity is created whose primary key already exists in the session. -/
inductive QMError
  | NotFound
  | InsufficientStock
  | InvalidInput
  | InvalidDiscount
  | StateConflict
  | DuplicateKey
deriving DecidableEq

/-- A database state: the entity tables, in primary-key (insertion) order,
plus the auto-increment counter for `Order.id`. -/
structure DB where
  pizzas : List Pizza
  extras : List Extra
  users : List User
  orders : List Order
  discountCodes : List DiscountCode
  nextOrderId : Nat
deriving DecidableEq

/-- Lookup `Pizza.get` by id. -/
def DB.findPizza (db : DB) (pid : Nat) : Option Pizza :=
  db.pizzas.find? (fun p => p.id == pid)

/-- Lookup `Extra.get` by id. -/
def DB.findExtra (db : DB) (eid : Nat) : Option Extra :=
  db.extras.find? (fun e => e.id == eid)

/-- Lookup `User.get` by id. -/
def DB.findUser (db : DB) (uid : Nat) : Option User :=
  db.users.find? (fun u => u.id == uid)

/-- Lookup `Order.get` by id. -/
def DB.findOrder (db : DB) (oid : Nat) : Option Order :=
  db.orders.find? (fun o => o.id == oid)

/-- Lookup `DiscountCode.get` by code string. -/
def DB.findCode (db : DB) (c : String) : Option DiscountCode :=
  db.discountCodes.find? (fun d => d.code == c)

/-! ## Pricing (`QueryManager.calculate_pizza_price`, lines 136-149) -/

/-- Sum `sum(ing.price for ing in pizza.ingredients)`. -/
def ingredientCost (p : Pizza) : ℚ :=
  (p.ingredients.map (fun i => i.price)).sum

/-- Method `QueryManager.calculate_pizza_price`: `ValueError` (NotFound) when the
pizza id is absent, `0.0` when the ingredient set is empty, otherwise
`round(sum * 1.40 * 1.09, 2)`.  (`MenuView.calculate_pizza_price` omits the
empty shortcut but computes `round(0 * 1.40 * 1.09, 2) = 0.0` there, the
same value.) -/
def calculate_pizza_price (db : DB) (pizza_id : Nat) : Except QMError ℚ :=
  match db.findPizza pizza_id with
  | none => Except.error QMError.NotFound
  | some pizza =>
    if pizza.ingredients.isEmpty then Except.ok 0
    else
      let ingredient_cost := ingredientCost pizza
      let with_margin := ingredient_cost * (140 / 100)
      let with_vat := with_margin * (109 / 100)
      Except.ok (roundTo2 with_vat)

/-! ## Dietary classification (`get_vegan_pizzas`, `get_vegetarian_pizzas`,
`MenuView.get_pizza_dietary_type`) -/

/-- Method `MenuView.get_pizza_dietary_type` (`views.py` lines 173-197): the
Python source compares the enum values as strings, which coincides with
enum equality. -/
def get_pizza_dietary_type (p : Pizza) : IngredientType :=
  if p.ingredients.all (fun i => i.type == IngredientType.Vegan) then
    IngredientType.Vegan
  else if p.ingredients.all (fun i =>
      i.type == IngredientType.Vegan || i.type == IngredientType.Vegetarian) then
    IngredientType.Vegetarian
  else
    IngredientType.Normal

/-- Method `QueryManager.get_vegan_pizzas` (lines 103-113): the initial
`Pizza.select(lambda p: p.ingredients)` keeps only pizzas with a non-empty
ingredient set, and the Python-side filter re-checks
`pizza.ingredients and all(i.type == Vegan ...)`. -/
def get_vegan_pizzas (db : DB) : List Pizza :=
  let all_pizzas := db.pizzas.filter (fun p => !p.ingredients.isEmpty)
  all_pizzas.filter (fun p =>
    !p.ingredients.isEmpty &&
      p.ingredients.all (fun i => i.type == IngredientType.Vegan))

/-- Method `QueryManager.get_vegetarian_pizzas` (lines 115-125). -/
def get_vegetarian_pizzas (db : DB) : List Pizza :=
  let all_pizzas := db.pizzas.filter (fun p => !p.ingredients.isEmpty)
  all_pizzas.filter (fun p =>
    !p.ingredients.isEmpty &&
      p.ingredients.all (fun i =>
        i.type == IngredientType.Vegan || i.type == IngredientType.Vegetarian))

/-! ## Discount codes (`get_discount_code_details`, lines 812-846) -/

/-- The `is_valid` computation of `get_discount_code_details` (lines
820-823): `not used and (valid_from is None or valid_from <= now) and
valid_until >= now`. -/
def codeIsValid (dc : DiscountCode) (now : Int) : Bool :=
  !dc.used &&
    (match dc.valid_from with
     | none => true
     | some t => decide (t ≤ now)) &&
    decide (now ≤ dc.valid_until)

/-- Method `get_discount_code_details`, restricted to the fields the claims use:
the code row and its `is_valid` flag; `none` when the code is absent. -/
def get_discount_code_details (db : DB) (now : Int) (code : String) :
    Option (DiscountCode × Bool) :=
  match db.findCode code with
  | none => none
  | some dc => some (dc, codeIsValid dc now)

/-! ## Loyalty (`process_loyalty_points`, lines 722-780) -/

/-- Method `process_loyalty_points`: `fresh` stands for the random
`secrets.token_hex(8).upper()` code string.  Python's `if not user_id`
rejects id `0`; a non-`Customer` user returns `None` without any change;
otherwise the customer's points are incremented and, on reaching 10, reset
to 0 while a 10% code valid for 30 days from `now` is created. -/
def process_loyalty_points (db : DB) (now : Int) (fresh : String)
    (user_id : Nat) : Except QMError (DB × Option DiscountCode) :=
  if user_id = 0 then Except.error QMError.InvalidInput
  else
    match db.findUser user_id with
    | none => Except.error QMError.NotFound
    | some user =>
      match user.kind with
      | UserKind.Customer lp bo =>
        let lp1 := lp + 1
        if 10 ≤ lp1 then
          let dc : DiscountCode :=
            { code := fresh, percentage := 10, valid_until := now + days 30,
              valid_from := some now, used := false, used_by := none }
          let user2 := { user with kind := UserKind.Customer 0 bo }
          Except.ok ({ db with
            users := db.users.map (fun u => if u.id = user.id then user2 else u),
            discountCodes := db.discountCodes ++ [dc] }, some dc)
        else
          let user2 := { user with kind := UserKind.Customer lp1 bo }
          Except.ok ({ db with
            users := db.users.map (fun u => if u.id = user.id then user2 else u) },
            none)
      | _ => Except.ok (db, none)

/-! ## Order update (`update_order`, lines 537-595) -/

/-- Lookup `DeliveryPerson.get`: the user with that id, provided it is a
delivery person. -/
def DB.findDeliveryPerson (db : DB) (uid : Nat) : Option User :=
  db.users.find? (fun u => u.id == uid && u.deliveryStatus.isSome)

/-- Method `update_order`: partial update of an existing order.  The only checks
are `if not order_id`, existence of the order and of a referenced delivery
person, and non-emptiness of a supplied postal code; a supplied `status` is
stored unconditionally, with `delivered_at` auto-set to `now` on a move to
`Delivered` when it was unset (and overridden by an explicit
`delivered_at`). -/
def update_order (db : DB) (now : Int) (order_id : Nat)
    (status : Option OrderStatus) (delivered_at : Option Int)
    (delivery_person_id : Option Nat) (postal_code : Option String) :
    Except QMError (DB × Order) :=
  if order_id = 0 then Except.error QMError.InvalidInput
  else
    match db.findOrder order_id with
    | none => Except.error QMError.NotFound
    | some order =>
      match (match delivery_person_id with
             | none => Except.ok ()
             | some dpid =>
               match db.findDeliveryPerson dpid with
               | none => Except.error QMError.NotFound
               | some _ => Except.ok ()) with
      | Except.error e => Except.error e
      | Except.ok _ =>
        let o1 :=
          match status with
          | none => order
          | some st =>
            let oS := { order with status := st }
            if st = OrderStatus.Delivered ∧ order.delivered_at = none then
              { oS with delivered_at := some now }
            else oS
        let o2 :=
          match delivered_at with
          | none => o1
          | some d => { o1 with delivered_at := some d }
        let o3 :=
          match delivery_person_id with
          | none => o2
          | some dpid => { o2 with delivery_person := some dpid }
        match postal_code with
        | some pc =>
          if pc.trim = "" then Except.error QMError.InvalidInput
          else
            let o4 := { o3 with postalCode := pc }
            Except.ok ({ db with
              orders := db.orders.map (fun o => if o.id = order.id then o4 else o) }, o4)
        | none =>
          Except.ok ({ db with
            orders := db.orders.map (fun o => if o.id = order.id then o3 else o) }, o3)

/-! ## Delivery assignment (`get_available_delivery_persons`, lines 850-861,
and `assign_delivery_person_to_order`, lines 874-923) -/

/-- Method `get_available_delivery_persons`: all delivery persons whose status is
`Available`, in table (primary-key) order. -/
def get_available_delivery_persons (db : DB) : List User :=
  db.users.filter (fun u => u.deliveryStatus == some DeliveryStatus.Available)

/-- Query `list(DeliveryPerson.select())` over all delivery persons. -/
def allDeliveryPersons (db : DB) : List User :=
  db.users.filter (fun u => u.deliveryStatus.isSome)

/-- Method `assign_delivery_person_to_order`: requires the order to exist, to have
no delivery person yet, and to be `In_Progress`; returns `none` (no state
change) when no `Available` delivery person exists; otherwise assigns the
first `Available` one and flips its status to `On_Delivery`. -/
def assign_delivery_person_to_order (db : DB) (order_id : Nat) :
    Except QMError (Option (DB × Nat × Nat)) :=
  if order_id = 0 then Except.error QMError.InvalidInput
  else
    match db.findOrder order_id with
    | none => Except.error QMError.NotFound
    | some order =>
      if order.delivery_person.isSome then Except.error QMError.StateConflict
      else if order.status ≠ OrderStatus.In_Progress then
        Except.error QMError.StateConflict
      else
        match get_available_delivery_persons db with
        | [] => Except.ok none
        | dp :: _ =>
          let db2 := { db with
            orders := db.orders.map (fun o =>
              if o.id = order.id then { o with delivery_person := some dp.id } else o),
            users := db.users.map (fun u =>
              if u.id = dp.id then
                { u with kind := UserKind.DeliveryPerson DeliveryStatus.On_Delivery }
              else u) }
          Except.ok (some (db2, order_id, dp.id))

/-! ## Multi-pizza order creation (`create_multiple_pizza_order`,
lines 945-1081) -/

/-- Python's `postal_code or user.postalCode` (`None` and the empty string are falsy). -/
def pyStrOr (a : Option String) (b : String) : String :=
  match a with
  | none => b
  | some s => if s = "" then b else s

/-- The validation loop of `create_multiple_pizza_order` (lines 993-1004):
for each `[pizza_id, quantity]` pair, in order, the pizza must exist, the
quantity must be positive, and the stock must cover the quantity. -/
def validateStock (ps : List Pizza) : List (Nat × Int) → Except QMError Unit
  | [] => Except.ok ()
  | (pid, qty) :: rest =>
    match ps.find? (fun p => p.id == pid) with
    | none => Except.error QMError.NotFound
    | some pizza =>
      if qty ≤ 0 then Except.error QMError.InvalidInput
      else if pizza.stock < qty then Except.error QMError.InsufficientStock
      else validateStock ps rest

/-- Decrement `pizza.stock -= quantity` on the pizza rows with id `pid`. -/
def decStock (ps : List Pizza) (pid : Nat) (qty : Int) : List Pizza :=
  ps.map (fun p => if p.id = pid then { p with stock := p.stock - qty } else p)

/-- The relation-creation loop of `create_multiple_pizza_order` (lines
1029-1039): each pair creates an `OrderPizzaRelation` and decrements the
pizza's stock.  `OrderPizzaRelation` has primary key `(order, pizza)`
(`models.py` line 39), so a repeated pizza id within one order raises
Pony's `CacheIndexError` at creation time (the whole transaction is then
rolled back). -/
def addLinesAndDecrement :
    List Nat → List Pizza → List (Nat × Int) → Except QMError (List Pizza)
  | _, ps, [] => Except.ok ps
  | seen, ps, (pid, qty) :: rest =>
    if pid ∈ seen then Except.error QMError.DuplicateKey
    else addLinesAndDecrement (pid :: seen) (decStock ps pid qty) rest

/-- The extras loop of `create_multiple_pizza_order` (lines 1042-1051):
each id must exist; `order.extras` is a Pony `Set`, so ids are added
without duplicates. -/
def addExtrasMulti (db : DB) : Order → List Nat → Except QMError Order
  | o, [] => Except.ok o
  | o, eid :: rest =>
    match db.findExtra eid with
    | none => Except.error QMError.NotFound
    | some _ =>
      addExtrasMulti db
        (if eid ∈ o.extras then o else { o with extras := o.extras ++ [eid] }) rest

/-- The delivery person chosen by `create_multiple_pizza_order` (lines
1006-1018): the first `Available` one, else `random.choice` over all
delivery persons, modelled by the ambient random index `rand`. -/
def pickDeliveryPerson (db : DB) (rand : Nat) : Option User :=
  match get_available_delivery_persons db with
  | dp :: _ => some dp
  | [] =>
    match allDeliveryPersons db with
    | [] => none
    | x :: xs => some ((x :: xs).getD (rand % (x :: xs).length) x)

/-- The discount step of `create_multiple_pizza_order` (lines 1058-1078):
the code must exist and pass `is_valid`; the redeeming user's
`discount_code` link is set for every code type; `used`/`used_by` are set
only for birthday codes (`percentage == 0.0`). -/
def applyDiscountMulti (codes : List DiscountCode) (users : List User)
    (now : Int) (user : User) : Option String →
    Except QMError (List DiscountCode × List User)
  | none => Except.ok (codes, users)
  | some code =>
    match codes.find? (fun d => d.code == code) with
    | none => Except.error QMError.InvalidDiscount
    | some dc =>
      if codeIsValid dc now then
        let users2 := users.map (fun u =>
          if u.id = user.id then { u with discount_code := some dc.code } else u)
        if dc.percentage = 0 then
          Except.ok (codes.map (fun d =>
            if d.code = dc.code then { d with used := true, used_by := some user.id }
            else d), users2)
        else Except.ok (codes, users2)
      else Except.error QMError.InvalidDiscount

/-- Method `QueryManager.create_multiple_pizza_order` (lines 945-1081), step for
step: user lookup, postal-code resolution, non-empty order check, the
stock-validation loop, delivery-person selection, order creation, the
relation/stock loop, the extras loop, the delivery-status flip, and the
discount step.  An error anywhere rolls the transaction back, which the
`Except.error` result models (the caller keeps the original `db`). -/
def create_multiple_pizza_order (db : DB) (now : Int) (rand : Nat)
    (user_id : Nat) (pizza_quantities : List (Nat × Int))
    (extra_ids : Option (List Nat)) (discount_code : Option String)
    (postal_code : Option String) : Except QMError (DB × Order) :=
  match db.findUser user_id with
  | none => Except.error QMError.NotFound
  | some user =>
    let final_postal_code := pyStrOr postal_code user.postalCode
    if final_postal_code = "" then Except.error QMError.InvalidInput
    else if pizza_quantities.isEmpty then Except.error QMError.InvalidInput
    else
      match validateStock db.pizzas pizza_quantities with
      | Except.error e => Except.error e
      | Except.ok _ =>
        let delivery_person := pickDeliveryPerson db rand
        let order0 : Order :=
          { id := db.nextOrderId, userId := user.id, lines := pizza_quantities,
            extras := [], status := OrderStatus.Pending, created_at := now,
            delivered_at := none,
            delivery_person := delivery_person.map (fun dp => dp.id),
            postalCode := final_postal_code }
        match addLinesAndDecrement [] db.pizzas pizza_quantities with
        | Except.error e => Except.error e
        | Except.ok pizzas2 =>
          match addExtrasMulti db order0 (extra_ids.getD []) with
          | Except.error e => Except.error e
          | Except.ok order1 =>
            let users1 :=
              match delivery_person with
              | some dp =>
                if dp.deliveryStatus == some DeliveryStatus.Available then
                  db.users.map (fun u =>
                    if u.id = dp.id then
                      { u with kind := UserKind.DeliveryPerson DeliveryStatus.On_Delivery }
                    else u)
                else db.users
              | none => db.users
            match applyDiscountMulti db.discountCodes users1 now user discount_code with
            | Except.error e => Except.error e
            | Except.ok (codes2, users2) =>
              let db2 := { db with
                pizzas := pizzas2
                users := users2
                discountCodes := codes2
                orders := db.orders ++ [order1]
                nextOrderId := db.nextOrderId + 1 }
              Except.ok (db2, order1)

/-! ## Single-step order creation (`create_order`, lines 342-535) -/

/-- The pizza-validation loop of `create_order` (lines 399-403): every
pizza must exist and every quantity must be at least 1 (no stock check in
this method). -/
def validatePizzasCO (ps : List Pizza) : List (Nat × Int) → Except QMError Unit
  | [] => Except.ok ()
  | (pid, qty) :: rest =>
    match ps.find? (fun p => p.id == pid) with
    | none => Except.error QMError.NotFound
    | some _ =>
      if qty < 1 then Except.error QMError.InvalidInput
      else validatePizzasCO ps rest

/-- The extras-validation loop of `create_order` (lines 406-409). -/
def validateExtrasCO (es : List Extra) : List Nat → Except QMError Unit
  | [] => Except.ok ()
  | eid :: rest =>
    match es.find? (fun e => e.id == eid) with
    | none => Except.error QMError.NotFound
    | some _ => validateExtrasCO es rest

/-- The relation-creation loop of `create_order` (lines 424-427): the
`(order, pizza)` primary key makes a repeated pizza id raise
`CacheIndexError`. -/
def buildRelations : List Nat → List (Nat × Int) → Except QMError Unit
  | _, [] => Except.ok ()
  | seen, (pid, _) :: rest =>
    if pid ∈ seen then Except.error QMError.DuplicateKey
    else buildRelations (pid :: seen) rest

/-- Insertion `order.extras.add(extra)` over a list of ids: Pony `Set` semantics, so
duplicates collapse. -/
def addExtrasSet : List Nat → List Nat → List Nat
  | extras, [] => extras
  | extras, eid :: rest =>
    addExtrasSet (if eid ∈ extras then extras else extras ++ [eid]) rest

/-- Value of `QueryManager.calculate_pizza_price` for a pizza known to
exist (the `NotFound` branch cannot occur at the call sites). -/
def pizzaPriceVal (db : DB) (pid : Nat) : ℚ :=
  match calculate_pizza_price db pid with
  | Except.ok v => v
  | Except.error _ => 0

/-- The `total` computed by `create_order` (lines 437-450): pizza unit
price times quantity summed over the request pairs, plus each requested
extra's price (the loop runs over the `extra_ids` list, so a repeated id
counts twice here even though the order's extras set collapses it). -/
def orderSubtotal (db : DB) (pqs : List (Nat × Int)) (eids : List Nat) : ℚ :=
  (pqs.map (fun pq => pizzaPriceVal db pq.1 * (pq.2 : ℚ))).sum +
    ((eids.filterMap (fun eid => db.findExtra eid)).map (fun e => e.price)).sum

/-- One step of the cheapest-pizza / cheapest-drink loops of `create_order`
(lines 473-490): `if price < cheapest_price` against a running minimum that
starts at `float('inf')` (`none`). -/
def cheapestStep (acc : Option ℚ) (p : ℚ) : Option ℚ :=
  match acc with
  | none => some p
  | some c => if p < c then some p else some c

/-- The cheapest-pizza / cheapest-drink loop shape of `create_order`:
running minimum over a price list (`none` when the list is empty). -/
def cheapestLoop (prices : List ℚ) : Option ℚ :=
  prices.foldl cheapestStep none

/-- Unit prices of the order's pizza relations, in creation order. -/
def relationPrices (db : DB) (pqs : List (Nat × Int)) : List ℚ :=
  pqs.map (fun pq => pizzaPriceVal db pq.1)

/-- Prices of the `Drink`-type extras among the order's extras. -/
def drinkPrices (db : DB) (eids : List Nat) : List ℚ :=
  (eids.filterMap (fun eid => db.findExtra eid)).filterMap
    (fun e => if e.type == ExtraType.Drink then some e.price else none)

/-- The discount step of `create_order` (lines 452-522): the code must
exist and pass `is_valid`; a birthday code (`percentage == 0.0`) credits
the cheapest pizza relation plus the cheapest drink extra (0 for a missing
component) and is marked used; a percentage code credits
`total * percentage / 100` and is left unmarked.  Returns the computed
`discount_amount` and the updated code table. -/
def applyDiscountCO (db : DB) (now : Int) (user : User)
    (pqs : List (Nat × Int)) (orderExtras : List Nat) (total : ℚ) :
    Option String → Except QMError (Option ℚ × List DiscountCode)
  | none => Except.ok (none, db.discountCodes)
  | some code =>
    match db.findCode code with
    | none => Except.error QMError.InvalidDiscount
    | some dc =>
      if codeIsValid dc now then
        if dc.percentage = 0 then
          let cheapest_price := cheapestLoop (relationPrices db pqs)
          let drink_price := cheapestLoop (drinkPrices db orderExtras)
          let damt := cheapest_price.getD 0 + drink_price.getD 0
          let codes2 := db.discountCodes.map (fun d =>
            if d.code = dc.code then { d with used := true, used_by := some user.id }
            else d)
          Except.ok (some damt, codes2)
        else
          Except.ok (some (total * (dc.percentage / 100)), db.discountCodes)
      else Except.error QMError.InvalidDiscount

/-- Method `QueryManager.create_order` (lines 342-535), step for step.  The third
result component is the `discount_amount` the method computes for its
`discount_info` log record (`none` when no code was supplied). -/
def create_order (db : DB) (now : Int) (user_id : Nat)
    (pizza_quantities : List (Nat × Int)) (extra_ids : Option (List Nat))
    (discount_code : Option String) (status : OrderStatus)
    (created_at : Option Int) (delivered_at : Option Int)
    (delivery_person_id : Option Nat) (postal_code : Option String) :
    Except QMError (DB × Order × Option ℚ) :=
  if user_id = 0 then Except.error QMError.InvalidInput
  else if pizza_quantities.isEmpty then Except.error QMError.InvalidInput
  else
    match db.findUser user_id with
    | none => Except.error QMError.NotFound
    | some user =>
      let final_postal_code := pyStrOr postal_code user.postalCode
      if final_postal_code = "" then Except.error QMError.InvalidInput
      else
        let final_created_at := created_at.getD now
        match (match delivery_person_id with
               | none => Except.ok (none : Option User)
               | some dpid =>
                 if dpid = 0 then Except.ok none
                 else
                   match db.findDeliveryPerson dpid with
                   | none => Except.error QMError.NotFound
                   | some dp => Except.ok (some dp)) with
        | Except.error e => Except.error e
        | Except.ok delivery_person =>
          match validatePizzasCO db.pizzas pizza_quantities with
          | Except.error e => Except.error e
          | Except.ok _ =>
            match validateExtrasCO db.extras (extra_ids.getD []) with
            | Except.error e => Except.error e
            | Except.ok _ =>
              match buildRelations [] pizza_quantities with
              | Except.error e => Except.error e
              | Except.ok _ =>
                let orderExtras := addExtrasSet [] (extra_ids.getD [])
                let total := orderSubtotal db pizza_quantities (extra_ids.getD [])
                let order1 : Order :=
                  { id := db.nextOrderId, userId := user.id
                    lines := pizza_quantities, extras := orderExtras
                    status := status, created_at := final_created_at
                    delivered_at := delivered_at
                    delivery_person := delivery_person.map (fun dp => dp.id)
                    postalCode := final_postal_code }
                match applyDiscountCO db now user pizza_quantities orderExtras
                    total discount_code with
                | Except.error e => Except.error e
                | Except.ok (damt, codes2) =>
                  let db2 := { db with
                    discountCodes := codes2
                    orders := db.orders ++ [order1]
                    nextOrderId := db.nextOrderId + 1 }
                  Except.ok (db2, order1, damt)

/-! ## Decidability of result equality -/

instance {ε α : Type} [DecidableEq ε] [DecidableEq α] : DecidableEq (Except ε α)
  | Except.ok a, Except.ok b =>
    if h : a = b then isTrue (by rw [h])
    else isFalse (by intro he; cases he; exact h rfl)
  | Except.error a, Except.error b =>
    if h : a = b then isTrue (by rw [h])
    else isFalse (by intro he; cases he; exact h rfl)
  | Except.ok _, Except.error _ => isFalse (by intro h; cases h)
  | Except.error _, Except.ok _ => isFalse (by intro h; cases h)

/-! ## Concrete fixtures used by witnesses and counterexamples -/

def tomato : Ingredient :=
  { id := 1, name := "Tomato Sauce", price := 1, type := IngredientType.Vegan }

def mozzarella : Ingredient :=
  { id := 2, name := "Mozzarella", price := 2, type := IngredientType.Vegetarian }

def margherita : Pizza :=
  { id := 1, name := "Margherita", ingredients := [tomato, mozzarella], stock := 5 }

def verde : Pizza :=
  { id := 2, name := "Verde", ingredients := [tomato], stock := 3 }

/-- A pizza with an empty ingredient set (claim C7). -/
def plainPizza : Pizza :=
  { id := 3, name := "Plain", ingredients := [], stock := 2 }

def cola : Extra :=
  { id := 1, name := "Cola", price := 2, type := ExtraType.Drink }

def tiramisu : Extra :=
  { id := 2, name := "Tiramisu", price := 3, type := ExtraType.Dessert }

def alice : User :=
  { id := 1, username := "alice", postalCode := "1234AB", discount_code := none,
    kind := UserKind.Customer 3 false }

def dave : User :=
  { id := 2, username := "dave", postalCode := "1234AB", discount_code := none,
    kind := UserKind.DeliveryPerson DeliveryStatus.Available }

def erin : User :=
  { id := 3, username := "erin", postalCode := "1234AB", discount_code := none,
    kind := UserKind.DeliveryPerson DeliveryStatus.Available }

def bob : User :=
  { id := 4, username := "bob", postalCode := "9999ZZ", discount_code := none,
    kind := UserKind.Customer 9 true }

def loyalName : String := "LOYAL10"

def bdayName : String := "BDAY0"

def usedName : String := "USEDCODE"

def freshName : String := "NEWCODE"

def codeTen : DiscountCode :=
  { code := loyalName, percentage := 10, valid_until := 1000, valid_from := some 0,
    used := false, used_by := none }

def codeBday : DiscountCode :=
  { code := bdayName, percentage := 0, valid_until := 1000, valid_from := some 0,
    used := false, used_by := none }

def codeUsed : DiscountCode :=
  { code := usedName, percentage := 5, valid_until := 1000, valid_from := some 0,
    used := true, used_by := some 4 }

def dbW : DB :=
  { pizzas := [margherita, verde, plainPizza], extras := [cola, tiramisu],
    users := [alice, dave, erin, bob], orders := [],
    discountCodes := [codeTen, codeBday, codeUsed], nextOrderId := 1 }

def orderDelivered : Order :=
  { id := 1, userId := 1, lines := [(1, 1)], extras := [],
    status := OrderStatus.Delivered, created_at := 0, delivered_at := some 50,
    delivery_person := none, postalCode := "1234AB" }

def dbC5 : DB := { dbW with orders := [orderDelivered], nextOrderId := 2 }

def orderInProgress : Order :=
  { id := 1, userId := 1, lines := [(1, 1)], extras := [],
    status := OrderStatus.In_Progress, created_at := 0, delivered_at := none,
    delivery_person := none, postalCode := "1234AB" }

def dbC8 : DB := { dbW with orders := [orderInProgress], nextOrderId := 2 }

/-- Total quantity requested for pizza `pid` across the request pairs. -/
def sumQty (pqs : List (Nat × Int)) (pid : Nat) : Int :=
  ((pqs.filter (fun pq => pq.1 == pid)).map (fun pq => pq.2)).sum

/-- Flag `true` on a successful result. -/
def resultOk : Except QMError (DB × Order) → Bool
  | Except.ok _ => true
  | Except.error _ => false

/-- The database state of a successful result. -/
def resultDB : Except QMError (DB × Order) → Option DB
  | Except.ok (d, _) => some d
  | Except.error _ => none

/-- First application of the percentage code `LOYAL10` (claim C3). -/
def c3first : Except QMError (DB × Order) :=
  create_multiple_pizza_order dbW 1 0 1 [(1, 1)] none (some loyalName) none

/-- Second application of the same percentage code, on the state the first
call produced. -/
def c3second : Except QMError (DB × Order) :=
  match c3first with
  | Except.ok (d, _) =>
    create_multiple_pizza_order d 2 0 1 [(1, 1)] none (some loyalName) none
  | e => e

/-- Application of the birthday code `BDAY0` (claim C3, amended part). -/
def c3brun : Except QMError (DB × Order) :=
  create_multiple_pizza_order dbW 1 0 1 [(1, 1)] none (some bdayName) none

def c3bdb : DB :=
  match c3brun with
  | Except.ok (d, _) => d
  | Except.error _ => dbW

def c3bo : Order :=
  match c3brun with
  | Except.ok (_, o) => o
  | Except.error _ => orderDelivered

/-- The order produced by the concrete `create_order` run of the C6
witness: two Margheritas plus one Cola, discount code `LOYAL10`. -/
def c6order : Order :=
  { id := 1, userId := 1, lines := [(1, 2)], extras := [1],
    status := OrderStatus.Pending, created_at := 1, delivered_at := none,
    delivery_person := none, postalCode := "1234AB" }

def dbW6after : DB :=
  { dbW with orders := [c6order], nextOrderId := 2 }

/-! ## General lemmas about the loop helpers -/

/-- Closed form for evaluating `roundTo2` at concrete arguments. -/
theorem roundTo2_eq (q : ℚ) (n : ℤ) (h1 : (n : ℚ) ≤ q * 100 + 1 / 2)
    (h2 : q * 100 + 1 / 2 < n + 1) : roundTo2 q = (n : ℚ) / 100 := by
  unfold roundTo2
  rw [Int.floor_eq_iff.mpr ⟨h1, h2⟩]

/-- A successful stock validation means: every requested pizza exists, every
quantity is positive and within the pizza's stock. -/
theorem validateStock_ok_spec (ps : List Pizza) (pqs : List (Nat × Int))
    (h : validateStock ps pqs = Except.ok ()) :
    ∀ pq ∈ pqs, ∃ p, ps.find? (fun x => x.id == pq.1) = some p ∧
      0 < pq.2 ∧ pq.2 ≤ p.stock := by
  induction pqs with
  | nil => intro pq hm; cases hm
  | cons hd tl ih =>
    obtain ⟨pid, qty⟩ := hd
    unfold validateStock at h
    cases hf : ps.find? (fun x => x.id == pid) with
    | none =>
      simp only [hf] at h
      cases h
    | some pizza =>
      simp only [hf] at h
      by_cases hq : qty ≤ 0
      · rw [if_pos hq] at h; cases h
      · rw [if_neg hq] at h
        by_cases hs : pizza.stock < qty
        · rw [if_pos hs] at h; cases h
        · rw [if_neg hs] at h
          intro pq hm
          rcases List.mem_cons.mp hm with heq | hm2
          · subst heq
            exact ⟨pizza, hf, by omega, by omega⟩
          · exact ih h pq hm2

/-- When every requested pizza exists with a positive quantity but some
request exceeds its pizza's stock, the validation loop fails with
`InsufficientStock`. -/
theorem validateStock_insufficient (ps : List Pizza) (pqs : List (Nat × Int))
    (hall : ∀ pq ∈ pqs, ∃ p, ps.find? (fun x => x.id == pq.1) = some p ∧ 0 < pq.2)
    (hex : ∃ pq ∈ pqs, ∃ p, ps.find? (fun x => x.id == pq.1) = some p ∧
      p.stock < pq.2) :
    validateStock ps pqs = Except.error QMError.InsufficientStock := by
  induction pqs with
  | nil =>
    obtain ⟨pq, hm, _⟩ := hex
    cases hm
  | cons hd tl ih =>
    obtain ⟨pid, qty⟩ := hd
    obtain ⟨p0, hf0, hq0⟩ := hall (pid, qty) (List.mem_cons_self _ _)
    unfold validateStock
    simp only [hf0]
    rw [if_neg (by omega : ¬qty ≤ 0)]
    by_cases hs : p0.stock < qty
    · rw [if_pos hs]
    · rw [if_neg hs]
      apply ih
      · intro pq hm
        exact hall pq (List.mem_cons_of_mem _ hm)
      · obtain ⟨pq, hm, p, hf, hst⟩ := hex
        rcases List.mem_cons.mp hm with heq | hm2
        · exfalso
          subst heq
          rw [hf0] at hf
          cases hf
          omega
        · exact ⟨pq, hm2, p, hf, hst⟩

/-- A successful relation/stock loop is the fold of the individual stock
decrements. -/
theorem addLines_ok_eq (pqs : List (Nat × Int)) :
    ∀ seen ps ps2, addLinesAndDecrement seen ps pqs = Except.ok ps2 →
      ps2 = pqs.foldl (fun acc pq => decStock acc pq.1 pq.2) ps := by
  induction pqs with
  | nil =>
    intro seen ps ps2 h
    cases h
    rfl
  | cons hd tl ih =>
    intro seen ps ps2 h
    obtain ⟨pid, qty⟩ := hd
    unfold addLinesAndDecrement at h
    by_cases hmem : pid ∈ seen
    · rw [if_pos hmem] at h; cases h
    · rw [if_neg hmem] at h
      simpa using ih _ _ _ h

/-- A successful relation/stock loop implies the requested pizza ids are
pairwise distinct (else the `(order, pizza)` primary key fires). -/
theorem addLines_ok_nodup (pqs : List (Nat × Int)) :
    ∀ seen ps ps2, addLinesAndDecrement seen ps pqs = Except.ok ps2 →
      (pqs.map (fun pq => pq.1)).Nodup ∧
        ∀ pid ∈ pqs.map (fun pq => pq.1), pid ∉ seen := by
  induction pqs with
  | nil =>
    intro seen ps ps2 _
    exact ⟨List.nodup_nil, by simp⟩
  | cons hd tl ih =>
    intro seen ps ps2 h
    obtain ⟨pid, qty⟩ := hd
    unfold addLinesAndDecrement at h
    by_cases hmem : pid ∈ seen
    · rw [if_pos hmem] at h; cases h
    · rw [if_neg hmem] at h
      obtain ⟨hnd, hnin⟩ := ih _ _ _ h
      refine ⟨?_, ?_⟩
      · simp only [List.map_cons, List.nodup_cons]
        exact ⟨fun hc => hnin pid hc (List.mem_cons_self _ _), hnd⟩
      · intro pid2 hm
        simp only [List.map_cons, List.mem_cons] at hm
        rcases hm with rfl | hm2
        · exact hmem
        · exact fun hc => hnin pid2 hm2 (List.mem_cons_of_mem _ hc)

theorem sumQty_nil (x : Nat) : sumQty [] x = 0 := rfl

theorem sumQty_cons (pid : Nat) (qty : Int) (tl : List (Nat × Int)) (x : Nat) :
    sumQty ((pid, qty) :: tl) x =
      if pid = x then qty + sumQty tl x else sumQty tl x := by
  by_cases h : pid = x <;> simp [sumQty, h]

theorem pizza_sub_zero_map (ps : List Pizza) :
    ps.map (fun p => { p with stock := p.stock - 0 }) = ps := by
  induction ps with
  | nil => rfl
  | cons p l ih =>
    cases p
    simp [ih]

/-- The fold of the stock decrements subtracts, per pizza, the total
requested quantity for its id. -/
theorem foldl_decStock_eq (pqs : List (Nat × Int)) :
    ∀ ps : List Pizza, pqs.foldl (fun acc pq => decStock acc pq.1 pq.2) ps =
      ps.map (fun p => { p with stock := p.stock - sumQty pqs p.id }) := by
  induction pqs with
  | nil =>
    intro ps
    simp only [List.foldl_nil, sumQty_nil]
    exact (pizza_sub_zero_map ps).symm
  | cons hd tl ih =>
    intro ps
    obtain ⟨pid, qty⟩ := hd
    rw [List.foldl_cons, ih]
    unfold decStock
    rw [List.map_map]
    apply List.map_congr_left
    intro p _
    simp only [Function.comp_apply]
    by_cases hp : p.id = pid
    · rw [if_pos hp]
      show ({ p with stock := p.stock - qty - sumQty tl p.id } : Pizza) = _
      rw [sumQty_cons, if_pos hp.symm, sub_sub]
    · rw [if_neg hp]
      show ({ p with stock := p.stock - sumQty tl p.id } : Pizza) = _
      rw [sumQty_cons, if_neg (fun hc => hp hc.symm)]

/-- In a table with distinct ids, lookup by the id of a member returns that
member. -/
theorem find?_id_of_nodup (ps : List Pizza) (p : Pizza)
    (hnd : (ps.map (fun x => x.id)).Nodup) (hp : p ∈ ps) :
    ps.find? (fun x => x.id == p.id) = some p := by
  induction ps with
  | nil => cases hp
  | cons q l ih =>
    simp only [List.map_cons, List.nodup_cons] at hnd
    rcases List.mem_cons.mp hp with rfl | hm
    · simp [List.find?]
    · have hne : (q.id == p.id) = false := by
        simp only [beq_eq_false_iff_ne, ne_eq]
        intro hc
        exact hnd.1 (hc ▸ List.mem_map.mpr ⟨p, hm, rfl⟩)
      simp only [List.find?, hne]
      exact ih hnd.2 hm

/-- With distinct request ids whose quantities all fit in stock, each
pizza's total requested quantity is either zero or a single fitting
quantity. -/
theorem sumQty_le (pqs : List (Nat × Int)) (ps : List Pizza) (p : Pizza)
    (hids : (ps.map (fun x => x.id)).Nodup) (hp : p ∈ ps)
    (hnd : (pqs.map (fun pq => pq.1)).Nodup)
    (hspec : ∀ pq ∈ pqs, ∃ q, ps.find? (fun x => x.id == pq.1) = some q ∧
      0 < pq.2 ∧ pq.2 ≤ q.stock) :
    sumQty pqs p.id = 0 ∨ sumQty pqs p.id ≤ p.stock := by
  induction pqs with
  | nil => exact Or.inl rfl
  | cons hd tl ih =>
    obtain ⟨pid, qty⟩ := hd
    simp only [List.map_cons, List.nodup_cons] at hnd
    by_cases hid : pid = p.id
    · have hz : sumQty tl p.id = 0 := by
        have hfil : (tl.filter (fun pq => pq.1 == p.id)) = [] := by
          apply List.filter_eq_nil_iff.mpr
          intro pq hm
          simp only [beq_iff_eq]
          intro hc
          exact hnd.1 (List.mem_map.mpr ⟨pq, hm, hc.trans hid.symm⟩)
        simp [sumQty, hfil]
      obtain ⟨q, hfq, hq1, hq2⟩ := hspec (pid, qty) (List.mem_cons_self _ _)
      have hfq2 : ps.find? (fun x => x.id == p.id) = some q := by
        rw [← hid]
        exact hfq
      have hqp : q = p := by
        rw [find?_id_of_nodup ps p hids hp] at hfq2
        exact (Option.some.inj hfq2).symm
      right
      rw [sumQty_cons, if_pos hid, hz]
      subst hqp
      omega
    · rw [sumQty_cons, if_neg hid]
      exact ih hnd.2 (fun pq hm => hspec pq (List.mem_cons_of_mem _ hm))

/-- The running-minimum fold started at a value computes the list minimum. -/
theorem cheapestLoop_aux (l : List ℚ) :
    ∀ c : ℚ, l.foldl cheapestStep (some c) = some (l.foldl min c) := by
  induction l with
  | nil => intro c; rfl
  | cons a l ih =>
    intro c
    have hstep : cheapestStep (some c) a = some (min c a) := by
      by_cases h : a < c
      · simp [cheapestStep, h, min_def, (not_le.mpr h)]
      · simp [cheapestStep, h, min_def, (not_lt.mp h)]
    rw [List.foldl_cons, hstep, ih, List.foldl_cons]

/-- The `float('inf')`-seeded running minimum of `create_order` computes
`List.min?`. -/
theorem cheapestLoop_eq_min (l : List ℚ) : cheapestLoop l = l.min? := by
  cases l with
  | nil => rfl
  | cons a l =>
    unfold cheapestLoop
    rw [List.foldl_cons, show cheapestStep none a = some a from rfl,
      cheapestLoop_aux]
    rfl

/-! ## C1: pizza price -/

/-- C1: for every pizza id, `calculate_pizza_price` fails with `NotFound`
when no pizza has that id; returns `0.0` for an existing pizza with an
empty ingredient set; otherwise returns
`round(sum of ingredient prices * 1.40 * 1.09, 2)`; and the result is
deterministic, depending only on the pizza's list of ingredient prices. -/
theorem C1_calculate_pizza_price (db db2 : DB) (pid pid2 : Nat) :
    (db.findPizza pid = none →
      calculate_pizza_price db pid = Except.error QMError.NotFound) ∧
    (∀ p, db.findPizza pid = some p → p.ingredients = [] →
      calculate_pizza_price db pid = Except.ok 0) ∧
    (∀ p, db.findPizza pid = some p → p.ingredients ≠ [] →
      calculate_pizza_price db pid =
        Except.ok (roundTo2 (ingredientCost p * (140 / 100) * (109 / 100)))) ∧
    (∀ p p2, db.findPizza pid = some p → db2.findPizza pid2 = some p2 →
      p.ingredients.map (fun i => i.price) = p2.ingredients.map (fun i => i.price) →
      calculate_pizza_price db pid = calculate_pizza_price db2 pid2) := by
  refine ⟨?_, ?_, ?_, ?_⟩
  · intro h
    simp [calculate_pizza_price, h]
  · intro p hp he
    simp [calculate_pizza_price, hp, he]
  · intro p hp he
    have : p.ingredients.isEmpty = false := by
      cases h : p.ingredients with
      | nil => exact absurd h he
      | cons a l => simp [h]
    simp [calculate_pizza_price, hp, this]
  · intro p p2 hp hp2 hpe
    have hcost : ingredientCost p = ingredientCost p2 := by
      unfold ingredientCost
      rw [hpe]
    have hempty : p.ingredients.isEmpty = p2.ingredients.isEmpty := by
      cases h1 : p.ingredients <;> cases h2 : p2.ingredients <;> simp_all
    simp only [calculate_pizza_price, hp, hp2]
    rw [hempty, hcost]

/-- C1 witness: the Margherita (ingredient prices 1 and 2) costs
`round(3 * 1.40 * 1.09, 2) = round(4.578, 2) = 4.58`. -/
theorem C1_calculate_pizza_price_witness :
    calculate_pizza_price dbW 1 = Except.ok (458 / 100) := by
  have h := (C1_calculate_pizza_price dbW dbW 1 1).2.2.1 margherita (by decide)
    (by decide)
  rw [h]
  have hr : roundTo2 (ingredientCost margherita * (140 / 100) * (109 / 100)) =
      ((458 : ℤ) : ℚ) / 100 := by
    apply roundTo2_eq <;> norm_num [ingredientCost, margherita, tomato, mozzarella]
  rw [hr]
  norm_num

/-! ## C7: dietary classification -/

/-- C7 counterexample: a pizza with an empty ingredient set is classified
`Vegan` by `get_pizza_dietary_type`, but the vegan-pizzas query does not
return it (its `Pizza.select(lambda p: p.ingredients)` and the
`pizza.ingredients and ...` guard both drop empty ingredient sets), so the
claim's "(and returned by the vegan query)" part fails. -/
theorem C7_counterexample :
    plainPizza ∈ dbW.pizzas ∧
    get_pizza_dietary_type plainPizza = IngredientType.Vegan ∧
    get_vegan_pizzas dbW = [verde] := by
  decide

/-- C7 amended: `get_pizza_dietary_type` classifies a pizza `Vegan` iff all
its ingredients are Vegan (vacuously so for an empty ingredient set),
`Vegetarian` iff all ingredients are Vegan-or-Vegetarian but not all Vegan,
and `Normal` otherwise; the vegan-pizzas query, however, returns exactly
the pizzas with a NON-EMPTY all-Vegan ingredient set, so an
empty-ingredient pizza classifies as Vegan yet is not returned. -/
theorem C7_dietary_amended (p : Pizza) (db : DB) :
    (get_pizza_dietary_type p = IngredientType.Vegan ↔
      ∀ i ∈ p.ingredients, i.type = IngredientType.Vegan) ∧
    (get_pizza_dietary_type p = IngredientType.Vegetarian ↔
      ((∀ i ∈ p.ingredients,
          i.type = IngredientType.Vegan ∨ i.type = IngredientType.Vegetarian) ∧
        ¬ ∀ i ∈ p.ingredients, i.type = IngredientType.Vegan)) ∧
    (get_pizza_dietary_type p = IngredientType.Normal ↔
      ¬ ∀ i ∈ p.ingredients,
          i.type = IngredientType.Vegan ∨ i.type = IngredientType.Vegetarian) ∧
    (p ∈ get_vegan_pizzas db ↔
      (p ∈ db.pizzas ∧ p.ingredients ≠ [] ∧
        ∀ i ∈ p.ingredients, i.type = IngredientType.Vegan)) := by
  have hv : (p.ingredients.all fun i => i.type == IngredientType.Vegan) = true ↔
      ∀ i ∈ p.ingredients, i.type = IngredientType.Vegan := by
    simp [List.all_eq_true]
  have hvg : (p.ingredients.all fun i =>
      i.type == IngredientType.Vegan || i.type == IngredientType.Vegetarian) = true ↔
      ∀ i ∈ p.ingredients,
        i.type = IngredientType.Vegan ∨ i.type = IngredientType.Vegetarian := by
    simp [List.all_eq_true]
  have h4 : p ∈ get_vegan_pizzas db ↔
      (p ∈ db.pizzas ∧ p.ingredients ≠ [] ∧
        ∀ i ∈ p.ingredients, i.type = IngredientType.Vegan) := by
    unfold get_vegan_pizzas
    simp only [List.mem_filter, Bool.and_eq_true, Bool.not_eq_true',
      List.all_eq_true, beq_iff_eq]
    constructor
    · rintro ⟨⟨hin, hne⟩, _, hall⟩
      exact ⟨hin, by simpa [List.isEmpty_iff] using hne, hall⟩
    · rintro ⟨hin, hne, hall⟩
      have hne2 : p.ingredients.isEmpty = false := by
        simpa [List.isEmpty_iff] using hne
      exact ⟨⟨hin, hne2⟩, hne2, hall⟩
  by_cases h1 : ∀ i ∈ p.ingredients, i.type = IngredientType.Vegan
  · have h2 : ∀ i ∈ p.ingredients,
        i.type = IngredientType.Vegan ∨ i.type = IngredientType.Vegetarian :=
      fun i hi => Or.inl (h1 i hi)
    have hr : get_pizza_dietary_type p = IngredientType.Vegan := by
      unfold get_pizza_dietary_type
      rw [if_pos (hv.mpr h1)]
    refine ⟨?_, ?_, ?_, h4⟩
    · simp only [hr, true_iff]
      exact h1
    · simp [hr]
      exact fun _ => h1
    · simp [hr]
      exact fun x hx hne => absurd (h1 x hx) hne
  · by_cases h2 : ∀ i ∈ p.ingredients,
        i.type = IngredientType.Vegan ∨ i.type = IngredientType.Vegetarian
    · have hr : get_pizza_dietary_type p = IngredientType.Vegetarian := by
        unfold get_pizza_dietary_type
        rw [if_neg (fun hc => h1 (hv.mp hc)), if_pos (hvg.mpr h2)]
      refine ⟨?_, ?_, ?_, h4⟩
      · simp [hr, h1]
      · simp [hr, h1]
        exact h2
      · simp [hr]
        exact fun x hx hne => (h2 x hx).resolve_left hne
    · have hr : get_pizza_dietary_type p = IngredientType.Normal := by
        unfold get_pizza_dietary_type
        rw [if_neg (fun hc => h1 (hv.mp hc)), if_neg (fun hc => h2 (hvg.mp hc))]
      refine ⟨?_, ?_, ?_, h4⟩
      · simp [hr, h1]
      · simp [hr, h2]
      · simp [hr, h2]

/-- C7 amended witness: the Margherita (one Vegan, one Vegetarian
ingredient) classifies as Vegetarian. -/
theorem C7_dietary_amended_witness :
    get_pizza_dietary_type margherita = IngredientType.Vegetarian :=
  (C7_dietary_amended margherita dbW).2.1.mpr ⟨by decide, by decide⟩

/-! ## C10: vegan query refines vegetarian query -/

/-- C10: every pizza returned by `get_vegan_pizzas` is also returned by
`get_vegetarian_pizzas` (an all-Vegan ingredient set is in particular
all-Vegan-or-Vegetarian, and both queries use the same non-emptiness
filters). -/
theorem C10_vegan_subset_vegetarian (db : DB) (p : Pizza)
    (h : p ∈ get_vegan_pizzas db) : p ∈ get_vegetarian_pizzas db := by
  unfold get_vegan_pizzas at h
  unfold get_vegetarian_pizzas
  simp only [List.mem_filter, Bool.and_eq_true, List.all_eq_true,
    beq_iff_eq] at h ⊢
  obtain ⟨⟨hin, hne⟩, hne2, hall⟩ := h
  exact ⟨⟨hin, hne⟩, hne2, fun i hi => by simp [hall i hi]⟩

/-- C10 witness at a concrete state: the all-vegan pizza of `dbW` is in the
vegetarian query's result. -/
theorem C10_witness : verde ∈ get_vegetarian_pizzas dbW :=
  C10_vegan_subset_vegetarian dbW verde (by decide)

/-! ## C9: discount-code usability -/

/-- C9: a discount code (with its optional `valid_from` actually set, as
every code-creating path in the source does) is judged `is_valid` exactly
when it is unused and `valid_from ≤ now ≤ valid_until`; an invalid code
makes the discount-application step of order creation fail with
`InvalidDiscount`, in both `create_multiple_pizza_order` and
`create_order`. -/
theorem C9_code_usability (dc : DiscountCode) (now t : Int)
    (hvf : dc.valid_from = some t) :
    (codeIsValid dc now = true ↔
      (dc.used = false ∧ t ≤ now ∧ now ≤ dc.valid_until)) ∧
    (∀ codes users user code,
      codes.find? (fun d => d.code == code) = some dc →
      codeIsValid dc now = false →
      applyDiscountMulti codes users now user (some code) =
        Except.error QMError.InvalidDiscount) ∧
    (∀ db2 user pqs oe total code, db2.findCode code = some dc →
      codeIsValid dc now = false →
      applyDiscountCO db2 now user pqs oe total (some code) =
        Except.error QMError.InvalidDiscount) := by
  refine ⟨?_, ?_, ?_⟩
  · simp [codeIsValid, hvf, and_assoc, Bool.not_eq_true']
  · intro codes users user code hfind hbad
    simp [applyDiscountMulti, hfind, hbad]
  · intro db2 user pqs oe total code hfind hbad
    simp [applyDiscountCO, hfind, hbad]

/-- C9 witness: the unused in-window code of `dbW` is valid at time 500,
and applying the already-used code fails with `InvalidDiscount`. -/
theorem C9_witness :
    codeIsValid codeTen 500 = true ∧
    applyDiscountMulti [codeUsed] [] 500 alice (some usedName) =
      Except.error QMError.InvalidDiscount := by
  constructor
  · exact (C9_code_usability codeTen 500 0 rfl).1.mpr ⟨rfl, by decide, by decide⟩
  · exact (C9_code_usability codeUsed 500 0 rfl).2.1 [codeUsed] [] alice usedName
      (by decide) (by decide)

/-! ## C5: order status transitions -/

/-- C5 counterexample: `update_order` contains no transition guard at all —
a `Delivered` order is happily moved back to `Pending`, so the claim that
transitions out of `Delivered`/`Cancelled` are rejected fails. -/
theorem C5_counterexample :
    dbC5.findOrder 1 = some orderDelivered ∧
    orderDelivered.status = OrderStatus.Delivered ∧
    update_order dbC5 100 1 (some OrderStatus.Pending) none none none =
      Except.ok
        ({ dbC5 with orders := [{ orderDelivered with status := OrderStatus.Pending }] },
          { orderDelivered with status := OrderStatus.Pending }) := by
  decide

/-- C5 amended: `update_order` rejects no status transition: for every
existing order and every requested status (with no other fields supplied),
the order's status is set to the requested value unconditionally — the
only checks in the method are order existence, delivery-person existence
and a non-empty postal code. -/
theorem C5_update_order_amended (db : DB) (now : Int) (oid : Nat) (o : Order)
    (st : OrderStatus) (hoid : oid ≠ 0) (ho : db.findOrder oid = some o) :
    ∃ o2, update_order db now oid (some st) none none none =
        Except.ok
          ({ db with orders := db.orders.map (fun x => if x.id = o.id then o2 else x) },
            o2) ∧
      o2.status = st := by
  by_cases hD : st = OrderStatus.Delivered ∧ o.delivered_at = none
  · refine ⟨{ o with status := st, delivered_at := some now }, ?_, rfl⟩
    simp [update_order, hoid, ho, hD]
  · refine ⟨{ o with status := st }, ?_, rfl⟩
    simp [update_order, hoid, ho, hD]

/-- C5 amended witness: the delivered order of `dbC5` is moved to
`In_Progress`. -/
theorem C5_update_order_amended_witness :
    (update_order dbC5 100 1 (some OrderStatus.In_Progress) none none none).map
      (fun r => r.2.status) = Except.ok OrderStatus.In_Progress := by
  obtain ⟨o2, heq, hst⟩ := C5_update_order_amended dbC5 100 1 orderDelivered
    OrderStatus.In_Progress (by decide) (by decide)
  rw [heq]
  simp [Except.map, hst]

/-! ## C4: loyalty points -/

/-- C4: for a customer with 9 loyalty points, `process_loyalty_points`
resets the points to 0 and appends exactly one new discount code with
percentage 10, unused, valid from `now` until 30 days later; for a
customer with at most 8 points it just increments the points and creates
no code. -/
theorem C4_process_loyalty_points (db : DB) (now : Int) (fresh : String)
    (uid : Nat) (u : User) (lp : Nat) (bo : Bool)
    (hid : uid ≠ 0) (hu : db.findUser uid = some u)
    (hk : u.kind = UserKind.Customer lp bo) :
    (lp = 9 →
      process_loyalty_points db now fresh uid =
        Except.ok ({ db with
          users := db.users.map (fun x =>
            if x.id = u.id then { u with kind := UserKind.Customer 0 bo } else x)
          discountCodes := db.discountCodes ++
            [{ code := fresh, percentage := 10, valid_until := now + days 30,
               valid_from := some now, used := false, used_by := none }] },
          some { code := fresh, percentage := 10, valid_until := now + days 30,
                 valid_from := some now, used := false, used_by := none })) ∧
    (lp ≤ 8 →
      process_loyalty_points db now fresh uid =
        Except.ok ({ db with
          users := db.users.map (fun x =>
            if x.id = u.id then { u with kind := UserKind.Customer (lp + 1) bo }
            else x) },
          none)) := by
  constructor
  · intro h9
    subst h9
    simp [process_loyalty_points, hid, hu, hk]
  · intro h8
    have hlt : ¬(10 ≤ lp + 1) := by omega
    simp [process_loyalty_points, hid, hu, hk, hlt]

/-- C4 witness: the 9-point customer of `dbW` is reset to 0 points and gets
one fresh 10% code valid for 30 days. -/
theorem C4_witness :
    process_loyalty_points dbW 5 freshName 4 =
      Except.ok ({ dbW with
        users := dbW.users.map (fun x =>
          if x.id = bob.id then { bob with kind := UserKind.Customer 0 true }
          else x)
        discountCodes := dbW.discountCodes ++
          [{ code := freshName, percentage := 10, valid_until := 5 + days 30,
             valid_from := some 5, used := false, used_by := none }] },
        some { code := freshName, percentage := 10, valid_until := 5 + days 30,
               valid_from := some 5, used := false, used_by := none }) :=
  (C4_process_loyalty_points dbW 5 freshName 4 bob 9 true (by decide)
    (by decide) rfl).1 rfl

/-! ## C8: delivery-person assignment -/

/-- C8: for an existing order, `assign_delivery_person_to_order` fails with
a state-conflict error unless the order is `In_Progress` with no delivery
person assigned; when the precondition holds and no `Available` delivery
person exists it returns `none` changing nothing; otherwise it assigns the
head of the `Available` list — the lowest-id `Available` person when the
user table is sorted by primary key — and flips that person's status to
`On_Delivery`. -/
theorem C8_assign_delivery (db : DB) (oid : Nat) (o : Order)
    (hoid : oid ≠ 0) (ho : db.findOrder oid = some o) :
    ((o.delivery_person ≠ none ∨ o.status ≠ OrderStatus.In_Progress) →
      assign_delivery_person_to_order db oid =
        Except.error QMError.StateConflict) ∧
    (o.delivery_person = none → o.status = OrderStatus.In_Progress →
      get_available_delivery_persons db = [] →
      assign_delivery_person_to_order db oid = Except.ok none) ∧
    (o.delivery_person = none → o.status = OrderStatus.In_Progress →
      ∀ dp dps, get_available_delivery_persons db = dp :: dps →
        dp.deliveryStatus = some DeliveryStatus.Available ∧
        (List.Pairwise (fun a b => a.id < b.id) db.users →
          ∀ x ∈ get_available_delivery_persons db, dp.id ≤ x.id) ∧
        assign_delivery_person_to_order db oid =
          Except.ok (some ({ db with
            orders := db.orders.map (fun x =>
              if x.id = o.id then { x with delivery_person := some dp.id }
              else x)
            users := db.users.map (fun u =>
              if u.id = dp.id then
                { u with kind := UserKind.DeliveryPerson DeliveryStatus.On_Delivery }
              else u) }, oid, dp.id))) := by
  refine ⟨?_, ?_, ?_⟩
  · intro hbad
    simp only [assign_delivery_person_to_order, hoid, if_false, ho]
    rcases hbad with hdp | hst
    · obtain ⟨d, hd⟩ := Option.ne_none_iff_exists'.mp hdp
      simp [hd]
    · cases hdp2 : o.delivery_person with
      | some d => simp [hdp2]
      | none => simp [hdp2, hst]
  · intro hdp hst hav
    simp only [assign_delivery_person_to_order, hoid, if_false, ho, hdp, hav]
    simp [hst]
  · intro hdp hst dp dps hcons
    have hmem : dp ∈ get_available_delivery_persons db := by
      rw [hcons]
      exact List.mem_cons_self _ _
    have hdpav : dp.deliveryStatus = some DeliveryStatus.Available := by
      have hmf : dp ∈ db.users ∧ dp.deliveryStatus = some DeliveryStatus.Available := by
        simpa [get_available_delivery_persons] using hmem
      exact hmf.2
    refine ⟨hdpav, ?_, ?_⟩
    · intro hpw x hx
      have hpw2 : List.Pairwise (fun a b => a.id < b.id)
          (get_available_delivery_persons db) :=
        List.Pairwise.sublist (List.filter_sublist _) hpw
      rw [hcons] at hpw2
      rw [hcons] at hx
      rcases List.mem_cons.mp hx with rfl | hx2
      · exact le_refl _
      · exact le_of_lt (List.rel_of_pairwise_cons hpw2 hx2)
    · simp only [assign_delivery_person_to_order, hoid, if_false, ho, hdp, hcons]
      simp [hst]

/-- C8 witness: in `dbC8` (one `In_Progress` unassigned order, delivery
persons `dave` (id 2) and `erin` (id 3) both `Available`), the lowest-id
available person `dave` is assigned and flipped to `On_Delivery`. -/
theorem C8_witness :
    assign_delivery_person_to_order dbC8 1 =
      Except.ok (some ({ dbC8 with
        orders := dbC8.orders.map (fun x =>
          if x.id = orderInProgress.id then { x with delivery_person := some dave.id }
          else x)
        users := dbC8.users.map (fun u =>
          if u.id = dave.id then
            { u with kind := UserKind.DeliveryPerson DeliveryStatus.On_Delivery }
          else u) }, 1, dave.id)) :=
  ((C8_assign_delivery dbC8 1 orderInProgress (by decide) (by decide)).2.2
    rfl rfl dave [erin] (by decide)).2.2

/-! ## C2: stock invariant of `create_multiple_pizza_order` -/

/-- Success inversion for `create_multiple_pizza_order`: a successful call
found the user, passed the stock validation, produced the decremented pizza
table, and passed the discount step; the new `pizzas`, `discountCodes` and
`users` tables are the corresponding outputs. -/
theorem cmpo_ok_parts (db : DB) (now : Int) (rand uid : Nat)
    (pqs : List (Nat × Int)) (eids : Option (List Nat))
    (dcode pcode : Option String) (db2 : DB) (o : Order)
    (h : create_multiple_pizza_order db now rand uid pqs eids dcode pcode =
      Except.ok (db2, o)) :
    ∃ u pizzas2 users1 codes2 users2,
      db.findUser uid = some u ∧
      validateStock db.pizzas pqs = Except.ok () ∧
      addLinesAndDecrement [] db.pizzas pqs = Except.ok pizzas2 ∧
      applyDiscountMulti db.discountCodes users1 now u dcode =
        Except.ok (codes2, users2) ∧
      db2.pizzas = pizzas2 ∧ db2.discountCodes = codes2 ∧ db2.users = users2 := by
  unfold create_multiple_pizza_order at h
  cases hu : db.findUser uid with
  | none =>
    simp only [hu] at h
    cases h
  | some u =>
    simp only [hu] at h
    by_cases hpost : pyStrOr pcode u.postalCode = ""
    · rw [if_pos hpost] at h
      cases h
    · rw [if_neg hpost] at h
      by_cases hne : pqs.isEmpty
      · rw [if_pos hne] at h
        cases h
      · rw [if_neg hne] at h
        cases hv : validateStock db.pizzas pqs with
        | error e =>
          simp only [hv] at h
          cases h
        | ok u0 =>
          cases u0
          simp only [hv] at h
          split at h
          next e hl =>
            cases h
          next pizzas2 hl =>
            split at h
            next e he =>
              cases h
            next order1 he =>
              split at h
              next e hd =>
                cases h
              next codes2 users2 hd =>
                simp only [Except.ok.injEq, Prod.mk.injEq] at h
                obtain ⟨hdb, _⟩ := h
                refine ⟨u, pizzas2, _, codes2, users2, rfl, rfl, hl, hd, ?_, ?_, ?_⟩
                · rw [← hdb]
                · rw [← hdb]
                · rw [← hdb]

/-- C2: (failure) when the user and postal code resolve, the request list
is non-empty, every requested pizza exists with positive quantity, and
some requested quantity exceeds that pizza's stock, the call fails with
`InsufficientStock` — and an error result leaves the database unchanged by
construction of the embedding (the transaction is rolled back).
(success) on success, every pizza's stock is decremented by exactly the
total quantity ordered for it (the requested ids are pairwise distinct,
each within stock).  (invariant) starting from non-negative stocks, a
successful call leaves every stock non-negative; a failed call leaves
stocks untouched. -/
theorem C2_stock_invariant (db : DB) (now : Int) (rand uid : Nat)
    (pqs : List (Nat × Int)) (eids : Option (List Nat))
    (dcode pcode : Option String) :
    ((∃ u, db.findUser uid = some u ∧ pyStrOr pcode u.postalCode ≠ "") →
      pqs ≠ [] →
      (∀ pq ∈ pqs, ∃ p, db.findPizza pq.1 = some p ∧ 0 < pq.2) →
      (∃ pq ∈ pqs, ∃ p, db.findPizza pq.1 = some p ∧ p.stock < pq.2) →
      create_multiple_pizza_order db now rand uid pqs eids dcode pcode =
        Except.error QMError.InsufficientStock) ∧
    (∀ db2 o, create_multiple_pizza_order db now rand uid pqs eids dcode pcode =
        Except.ok (db2, o) →
      db2.pizzas = db.pizzas.map (fun p =>
        { p with stock := p.stock - sumQty pqs p.id }) ∧
      (pqs.map (fun pq => pq.1)).Nodup ∧
      ∀ pq ∈ pqs, ∃ p, db.findPizza pq.1 = some p ∧ 0 < pq.2 ∧ pq.2 ≤ p.stock) ∧
    ((db.pizzas.map (fun p => p.id)).Nodup →
      (∀ p ∈ db.pizzas, 0 ≤ p.stock) →
      ∀ db2 o, create_multiple_pizza_order db now rand uid pqs eids dcode pcode =
        Except.ok (db2, o) →
      ∀ p2 ∈ db2.pizzas, 0 ≤ p2.stock) := by
  refine ⟨?_, ?_, ?_⟩
  · rintro ⟨u, hu, hpost⟩ hne hall hex
    have hall2 : ∀ pq ∈ pqs, ∃ p,
        db.pizzas.find? (fun x => x.id == pq.1) = some p ∧ 0 < pq.2 :=
      fun pq hm => hall pq hm
    have hex2 : ∃ pq ∈ pqs, ∃ p,
        db.pizzas.find? (fun x => x.id == pq.1) = some p ∧ p.stock < pq.2 := hex
    have hvs := validateStock_insufficient db.pizzas pqs hall2 hex2
    have hne2 : pqs.isEmpty = false := by simpa [List.isEmpty_iff] using hne
    simp [create_multiple_pizza_order, hu, hpost, hne2, hvs]
  · intro db2 o h
    obtain ⟨u, pizzas2, users1, codes2, users2, hu, hv, hl, hd, hp2, hc2, hus2⟩ :=
      cmpo_ok_parts db now rand uid pqs eids dcode pcode db2 o h
    have hnodup := (addLines_ok_nodup pqs [] db.pizzas pizzas2 hl).1
    have hspec := validateStock_ok_spec db.pizzas pqs hv
    refine ⟨?_, hnodup, fun pq hm => hspec pq hm⟩
    rw [hp2, addLines_ok_eq pqs [] db.pizzas pizzas2 hl, foldl_decStock_eq]
  · intro hids h0 db2 o h
    obtain ⟨u, pizzas2, users1, codes2, users2, hu, hv, hl, hd, hp2, hc2, hus2⟩ :=
      cmpo_ok_parts db now rand uid pqs eids dcode pcode db2 o h
    have hnodup := (addLines_ok_nodup pqs [] db.pizzas pizzas2 hl).1
    have hspec := validateStock_ok_spec db.pizzas pqs hv
    have heq : db2.pizzas = db.pizzas.map (fun p =>
        { p with stock := p.stock - sumQty pqs p.id }) := by
      rw [hp2, addLines_ok_eq pqs [] db.pizzas pizzas2 hl, foldl_decStock_eq]
    intro p2 hp2m
    rw [heq] at hp2m
    obtain ⟨p, hpm, rfl⟩ := List.mem_map.mp hp2m
    have hb := sumQty_le pqs db.pizzas p hids hpm hnodup hspec
    have h0p := h0 p hpm
    show 0 ≤ p.stock - sumQty pqs p.id
    rcases hb with hz | hle <;> omega

/-- C2 witness: requesting 99 Margheritas with stock 5 fails with
`InsufficientStock`. -/
theorem C2_witness :
    create_multiple_pizza_order dbW 0 0 1 [(1, 99)] none none none =
      Except.error QMError.InsufficientStock :=
  (C2_stock_invariant dbW 0 0 1 [(1, 99)] none none none).1
    ⟨alice, by decide, by decide⟩ (by decide)
    (by
      intro pq hm
      have hpq := List.mem_singleton.mp hm
      subst hpq
      exact ⟨margherita, by decide, by decide⟩)
    ⟨(1, 99), List.mem_singleton.mpr rfl, margherita, by decide, by decide⟩

/-! ## C3: one-time use of discount codes -/

/-- Success inversion for the discount step of
`create_multiple_pizza_order`: the code was found, was `is_valid`, and the
code table is marked only for birthday codes (`percentage == 0.0`). -/
theorem applyDiscountMulti_ok (codes : List DiscountCode) (users : List User)
    (now : Int) (user : User) (code : String) (codes2 : List DiscountCode)
    (users2 : List User)
    (h : applyDiscountMulti codes users now user (some code) =
      Except.ok (codes2, users2)) :
    ∃ dc, codes.find? (fun d => d.code == code) = some dc ∧
      codeIsValid dc now = true ∧
      ((dc.percentage = 0 ∧ codes2 = codes.map (fun d =>
          if d.code = dc.code then { d with used := true, used_by := some user.id }
          else d)) ∨
        (dc.percentage ≠ 0 ∧ codes2 = codes)) := by
  unfold applyDiscountMulti at h
  cases hf : codes.find? (fun d => d.code == code) with
  | none =>
    simp only [hf] at h
    cases h
  | some dc =>
    simp only [hf] at h
    by_cases hval : codeIsValid dc now = true
    · rw [if_pos hval] at h
      by_cases hz : dc.percentage = 0
      · rw [if_pos hz] at h
        simp only [Except.ok.injEq, Prod.mk.injEq] at h
        exact ⟨dc, rfl, hval, Or.inl ⟨hz, h.1.symm⟩⟩
      · rw [if_neg hz] at h
        simp only [Except.ok.injEq, Prod.mk.injEq] at h
        exact ⟨dc, rfl, hval, Or.inr ⟨hz, h.1.symm⟩⟩
    · rw [if_neg hval] at h
      cases h

/-- Looking up a code in the table where exactly the entries with that code
string were rewritten by a code-preserving modifier finds the modified
first match. -/
theorem find?_mark (codes : List DiscountCode) (code : String)
    (dc : DiscountCode) (g : DiscountCode → DiscountCode)
    (hg : ∀ d, (g d).code = d.code)
    (hf : codes.find? (fun d => d.code == code) = some dc) :
    (codes.map (fun d => if d.code = dc.code then g d else d)).find?
      (fun d => d.code == code) = some (g dc) := by
  have hdc : dc.code = code := by
    simpa using List.find?_some hf
  induction codes with
  | nil => cases hf
  | cons c l ih =>
    by_cases hc : c.code = code
    · rw [List.find?_cons_of_pos _ (by simp [hc])] at hf
      cases hf
      simp only [List.map_cons, if_pos rfl]
      exact List.find?_cons_of_pos _ (by simp [hg, hdc])
    · rw [List.find?_cons_of_neg _ (by simp [hc])] at hf
      simp only [List.map_cons]
      have hcm : ¬(c.code = dc.code) := by
        rw [hdc]
        exact hc
      rw [if_neg hcm]
      rw [List.find?_cons_of_neg _ (by simp [hc])]
      exact ih hf

/-- C3 counterexample: a percentage (10%) code is applied twice through
`create_multiple_pizza_order` and both calls succeed — after the first
application the code is still unmarked (`used = false`), because the source
sets `used`/`used_by` only when `percentage == 0.0`.  The claim's "for
every code, both percentage-type and birthday-type" is therefore false. -/
theorem C3_counterexample :
    0 < codeTen.percentage ∧
    resultOk c3first = true ∧
    (resultDB c3first).map (fun d => (d.findCode loyalName).map (fun x => x.used)) =
      some (some false) ∧
    resultOk c3second = true := by
  refine ⟨by decide, by decide, by decide, by decide⟩

/-- C3 amended: one-time use holds for birthday codes (`percentage = 0`)
only: a successful `create_multiple_pizza_order` application of a birthday
code marks it used, records the redeeming user, and any later
order-creation call supplying the same code can never succeed (the
`is_valid` check fails on `used`, raising `InvalidDiscount` at the discount
step); percentage codes are not marked used and can be reapplied. -/
theorem C3_discount_single_use (db : DB) (now : Int) (rand uid : Nat)
    (pqs : List (Nat × Int)) (eids : Option (List Nat)) (pcode : Option String)
    (code : String) (dc : DiscountCode) (db2 : DB) (o : Order)
    (hdc : db.findCode code = some dc) (hp : dc.percentage = 0)
    (h : create_multiple_pizza_order db now rand uid pqs eids (some code) pcode =
      Except.ok (db2, o)) :
    (∃ u, db.findUser uid = some u ∧
      db2.findCode code = some { dc with used := true, used_by := some u.id }) ∧
    (∀ now2 rand2 uid2 pqs2 eids2 pcode2 r,
      create_multiple_pizza_order db2 now2 rand2 uid2 pqs2 eids2 (some code)
        pcode2 ≠ Except.ok r) := by
  obtain ⟨u, pizzas2, users1, codes2, users2, hu, hv, hl, hd, hpz, hc2, hus2⟩ :=
    cmpo_ok_parts db now rand uid pqs eids (some code) pcode db2 o h
  obtain ⟨dc', hf', hval', hbranch⟩ :=
    applyDiscountMulti_ok _ _ _ _ _ _ _ hd
  have hdceq : dc' = dc := by
    unfold DB.findCode at hdc
    rw [hdc] at hf'
    exact (Option.some.inj hf').symm
  subst hdceq
  rcases hbranch with ⟨_, hc2eq⟩ | ⟨hpne, _⟩
  · have hfind2 : db2.findCode code =
        some { dc' with used := true, used_by := some u.id } := by
      unfold DB.findCode
      rw [hc2, hc2eq]
      exact find?_mark db.discountCodes code dc'
        (fun d => { d with used := true, used_by := some u.id })
        (fun d => rfl) hdc
    refine ⟨⟨u, hu, hfind2⟩, ?_⟩
    intro now2 rand2 uid2 pqs2 eids2 pcode2 r hcon
    obtain ⟨u2, pz2, us1b, cs2b, us2b, hu2, hv2, hl2, hd2, _, _, _⟩ :=
      cmpo_ok_parts db2 now2 rand2 uid2 pqs2 eids2 (some code) pcode2 r.1 r.2
        (by simpa using hcon)
    obtain ⟨dc2, hf2, hval2, _⟩ := applyDiscountMulti_ok _ _ _ _ _ _ _ hd2
    have hdc2eq : dc2 = { dc' with used := true, used_by := some u.id } := by
      unfold DB.findCode at hfind2
      rw [hfind2] at hf2
      exact (Option.some.inj hf2).symm
    rw [hdc2eq] at hval2
    simp [codeIsValid] at hval2
  · exact absurd hp hpne

/-- C3 amended witness: applying the birthday code `BDAY0` in `dbW`
succeeds and marks it used by `alice` (id 1). -/
theorem C3_discount_single_use_witness :
    c3bdb.findCode bdayName =
      some { codeBday with used := true, used_by := some alice.id } := by
  obtain ⟨⟨u, hu, hfind⟩, _⟩ := C3_discount_single_use dbW 1 0 1 [(1, 1)] none
    none bdayName codeBday c3bdb c3bo (by decide) (by decide) (by decide)
  rw [show dbW.findUser 1 = some alice from by decide] at hu
  cases Option.some.inj hu
  exact hfind

/-! ## C6: discount amounts in `create_order` -/

/-- Success inversion for `create_order`: the user was found, and the
discount step ran on the order's relations, extras set and subtotal,
producing the returned `discount_amount` and the new code table. -/
theorem create_order_ok_parts (db : DB) (now : Int) (uid : Nat)
    (pqs : List (Nat × Int)) (eids : Option (List Nat)) (dcode : Option String)
    (st : OrderStatus) (cr da : Option Int) (dpid : Option Nat)
    (pcode : Option String) (db2 : DB) (o : Order) (damt : Option ℚ)
    (h : create_order db now uid pqs eids dcode st cr da dpid pcode =
      Except.ok (db2, o, damt)) :
    ∃ u, db.findUser uid = some u ∧
      applyDiscountCO db now u pqs (addExtrasSet [] (eids.getD []))
        (orderSubtotal db pqs (eids.getD [])) dcode =
        Except.ok (damt, db2.discountCodes) := by
  unfold create_order at h
  by_cases h0 : uid = 0
  · rw [if_pos h0] at h
    cases h
  · rw [if_neg h0] at h
    by_cases hne : pqs.isEmpty
    · rw [if_pos hne] at h
      cases h
    · rw [if_neg hne] at h
      cases hu : db.findUser uid with
      | none =>
        simp only [hu] at h
        cases h
      | some u =>
        simp only [hu] at h
        by_cases hpost : pyStrOr pcode u.postalCode = ""
        · rw [if_pos hpost] at h
          cases h
        · rw [if_neg hpost] at h
          split at h
          next e hdp =>
            cases h
          next dpv hdp =>
            split at h
            next e hv =>
              cases h
            next v hv =>
              split at h
              next e hv2 =>
                cases h
              next v2 hv2 =>
                split at h
                next e hb =>
                  cases h
                next v3 hb =>
                  split at h
                  next e hd =>
                    cases h
                  next damt2 codes2 hd =>
                    simp only [Except.ok.injEq, Prod.mk.injEq] at h
                    obtain ⟨hdb, _, hdamt⟩ := h
                    refine ⟨u, rfl, ?_⟩
                    rw [← hdb, ← hdamt]
                    exact hd

/-- Success inversion for the discount step of `create_order`: the code was
found and `is_valid`; a birthday code yields the cheapest-relation plus
cheapest-drink credit, a percentage code yields `total * percentage/100`. -/
theorem applyDiscountCO_ok (db : DB) (now : Int) (user : User)
    (pqs : List (Nat × Int)) (oe : List Nat) (total : ℚ) (code : String)
    (damt : Option ℚ) (codes2 : List DiscountCode)
    (h : applyDiscountCO db now user pqs oe total (some code) =
      Except.ok (damt, codes2)) :
    ∃ dc, db.findCode code = some dc ∧ codeIsValid dc now = true ∧
      (dc.percentage = 0 →
        damt = some ((cheapestLoop (relationPrices db pqs)).getD 0 +
          (cheapestLoop (drinkPrices db oe)).getD 0)) ∧
      (dc.percentage ≠ 0 → damt = some (total * (dc.percentage / 100))) := by
  unfold applyDiscountCO at h
  cases hf : db.findCode code with
  | none =>
    simp only [hf] at h
    cases h
  | some dc =>
    simp only [hf] at h
    by_cases hval : codeIsValid dc now = true
    · rw [if_pos hval] at h
      by_cases hz : dc.percentage = 0
      · rw [if_pos hz] at h
        simp only [Except.ok.injEq, Prod.mk.injEq] at h
        exact ⟨dc, rfl, hval, fun _ => h.1.symm, fun hc => absurd hz hc⟩
      · rw [if_neg hz] at h
        simp only [Except.ok.injEq, Prod.mk.injEq] at h
        exact ⟨dc, rfl, hval, fun hc => absurd hc hz, fun _ => h.1.symm⟩
    · rw [if_neg hval] at h
      cases h

/-- C6: when `create_order` successfully applies a currently-usable
discount code, the computed `discount_amount` is
`order subtotal * percentage/100` for a percentage code, and
`min(relation unit prices) + min(Drink extra prices)` (0 for a missing
drink component; the pizza component always exists since an order has at
least one pizza line) for a birthday code (`percentage = 0`). -/
theorem C6_discount_amounts (db : DB) (now : Int) (uid : Nat)
    (pqs : List (Nat × Int)) (eids : Option (List Nat)) (code : String)
    (st : OrderStatus) (cr da : Option Int) (dpid : Option Nat)
    (pcode : Option String) (dc : DiscountCode) (db2 : DB) (o : Order)
    (damt : ℚ)
    (hdc : db.findCode code = some dc)
    (h : create_order db now uid pqs eids (some code) st cr da dpid pcode =
      Except.ok (db2, o, some damt)) :
    (dc.percentage ≠ 0 →
      damt = orderSubtotal db pqs (eids.getD []) * (dc.percentage / 100)) ∧
    (dc.percentage = 0 →
      damt = ((relationPrices db pqs).min?).getD 0 +
        ((drinkPrices db (addExtrasSet [] (eids.getD []))).min?).getD 0) := by
  obtain ⟨u, hu, hd⟩ := create_order_ok_parts db now uid pqs eids (some code)
    st cr da dpid pcode db2 o (some damt) h
  obtain ⟨dc2, hf2, hval2, hz, hnz⟩ := applyDiscountCO_ok db now u pqs
    (addExtrasSet [] (eids.getD [])) (orderSubtotal db pqs (eids.getD []))
    code (some damt) db2.discountCodes hd
  have hdc2 : dc2 = dc := by
    rw [hdc] at hf2
    exact (Option.some.inj hf2).symm
  subst hdc2
  constructor
  · intro hp
    exact Option.some.inj (hnz hp)
  · intro hp
    have hzz := hz hp
    rw [cheapestLoop_eq_min, cheapestLoop_eq_min] at hzz
    exact Option.some.inj hzz

/-- The concrete `create_order` run of the C6 witness: two Margheritas and
one Cola with the 10% code; the computed discount amount is the (symbolic)
subtotal times 10/100, and the code table is unchanged (percentage codes
are not marked used). -/
theorem c6run_eq :
    create_order dbW 1 1 [(1, 2)] (some [1]) (some loyalName)
      OrderStatus.Pending none none none none =
    Except.ok (dbW6after, c6order,
      some (orderSubtotal dbW [(1, 2)] [1] * (codeTen.percentage / 100))) := rfl

/-- C6 witness: for the concrete run, the 10% discount over the subtotal
`2 * 4.58 + 2.00 = 11.16` evaluates to `1.116 = 279/250`. -/
theorem C6_discount_amounts_witness :
    orderSubtotal dbW [(1, 2)] [1] * (codeTen.percentage / 100) = 279 / 250 := by
  have hd := (C6_discount_amounts dbW 1 1 [(1, 2)] (some [1]) loyalName
    OrderStatus.Pending none none none none codeTen dbW6after c6order
    (orderSubtotal dbW [(1, 2)] [1] * (codeTen.percentage / 100))
    (by decide) c6run_eq).1 (by decide)
  rw [hd]
  have hprice : pizzaPriceVal dbW 1 = 458 / 100 := by
    have hval : roundTo2 (ingredientCost margherita * (140 / 100) * (109 / 100)) =
        ((458 : ℤ) : ℚ) / 100 := by
      apply roundTo2_eq <;>
        norm_num [ingredientCost, margherita, tomato, mozzarella]
    have hfind : dbW.findPizza 1 = some margherita := by decide
    have hie : margherita.ingredients.isEmpty = false := rfl
    simp only [pizzaPriceVal, calculate_pizza_price, hfind, hie, Bool.false_eq_true,
      if_false, hval]
    norm_num
  have hfm : [1].filterMap (fun eid => dbW.findExtra eid) = [cola] := by decide
  simp only [orderSubtotal, List.map_cons, List.map_nil, List.sum_cons,
    List.sum_nil, hprice, hfm]
  norm_num [cola, codeTen, hfm]

end PizzaDB
